import Mathlib

/-!
Verification development for the reflexology-bump generation pipeline
(`generate_slippers.py`).  The pipeline maps 2D zone polygons drawn on a
reference image onto a 3D sole mesh, casts vertical rays to find the sole
surface, and places dome-shaped bumps at the resolved surface points.

The embedding below models the pipeline over exact rationals (the Python
code uses floats); the external mesh ray-intersection query
`mesh.ray.intersects_location` is modelled as an oracle function supplied
as a parameter.
-/

/-- A 2D point (image-pixel space or 3D xy-plane), exact coordinates. -/
abbrev Point2 := ℚ × ℚ

/-- A 3D point, exact coordinates. -/
abbrev Point3 := ℚ × ℚ × ℚ

/-- One COCO category: `{'id': ..., 'name': ...}`. -/
structure Category where
  id : ℕ
  name : String
deriving DecidableEq

/-- One COCO annotation: its id, its `category_id`, and
`ann['segmentation'][0]` reshaped to a list of 2D points. -/
structure ZoneAnn where
  annId : ℕ
  categoryId : ℕ
  segmentation : List Point2
deriving DecidableEq

/-- Run configuration derived from the loaded sole mesh and annotation file:
image pixel dimensions (`img_width`, `img_height`) and the mesh's
axis-aligned bounding box (`sole_model.bounds`). -/
structure Config where
  imgWidth : ℚ
  imgHeight : ℚ
  boundsMin : Point3
  boundsMax : Point3
deriving DecidableEq

/-- Source: `origin_x = bounds[0][0] + 10`. -/
def originX (cfg : Config) : ℚ := cfg.boundsMin.1 + 10

/-- Source: `origin_y = bounds[0][1] + 10`. -/
def originY (cfg : Config) : ℚ := cfg.boundsMin.2.1 + 10

/-- Source: `x_scale = (bounds[1][0] - bounds[0][0]) / img_width`. -/
def xScale (cfg : Config) : ℚ := (cfg.boundsMax.1 - cfg.boundsMin.1) / cfg.imgWidth

/-- Source: `y_scale = (bounds[1][1] - bounds[0][1]) / img_height`. -/
def yScale (cfg : Config) : ℚ := (cfg.boundsMax.2.1 - cfg.boundsMin.2.1) / cfg.imgHeight

/-- Source: `top_z = mesh.bounds[1][2]`. -/
def topZ (cfg : Config) : ℚ := cfg.boundsMax.2.2

/-- Source: `map_2d_to_3d(x, y)` with `x3d = origin_x + x * x_scale` and
`y3d = origin_y + (img_height - y) * y_scale`. -/
def map_2d_to_3d (cfg : Config) (x y : ℚ) : ℚ × ℚ :=
  (originX cfg + x * xScale cfg, originY cfg + (cfg.imgHeight - y) * yScale cfg)

/-- Number of elements of `np.arange(lo, hi, s)` for a positive step:
`ceil((hi - lo) / s)` values, none when the range is empty. -/
def arangeLen (lo hi s : ℚ) : ℕ :=
  if lo < hi ∧ 0 < s then (Int.ceil ((hi - lo) / s)).toNat else 0

/-- Model of `np.arange(lo, hi, s)`: the values `lo + i * s` for `i` below
`arangeLen lo hi s` (the half-open range `[lo, hi)`). -/
def arange (lo hi s : ℚ) : List ℚ :=
  (List.range (arangeLen lo hi s)).map (fun i : ℕ => lo + (i : ℚ) * s)

/-- Source: `bump_radius = 2.5` (mm), the dome radius parameter. -/
noncomputable def bump_radius : ℝ := 2.5

/-- Source: `bump_height = 4.0` (mm), the dome height parameter. -/
noncomputable def bump_height : ℝ := 4.0

/-- Source: `step = 5.0` (the source comment reads "mm, spacing between bump
centers"); the constant the grid iteration passes to `np.arange` over the
polygon's pixel-space bounding box. -/
def step : ℚ := 5

/-- Model of `np.linspace(a, b, n)` at index `i`: `a + (b - a) * i / (n - 1)`,
endpoints included. -/
noncomputable def linspace (a b : ℝ) (n i : ℕ) : ℝ :=
  a + (b - a) * (i : ℝ) / ((n : ℝ) - 1)

/-- Vertex `(j, i)` of `create_ellipsoid_bump(rx, ry, rz, sections, stacks)`:
`u = linspace(0, 2π, sections)` at `i`, `v = linspace(0, π/2, stacks)` at `j`
(after `meshgrid` and row-major flattening the vertex index is
`j * sections + i`), position `(rx·cos u·sin v, ry·sin u·sin v, rz·cos v)`. -/
noncomputable def bump_vertex (rx ry rz : ℝ) (nSections nStacks j i : ℕ) : ℝ × ℝ × ℝ :=
  let u := linspace 0 (2 * Real.pi) nSections i
  let v := linspace 0 (Real.pi / 2) nStacks j
  (rx * Real.cos u * Real.sin v, ry * Real.sin u * Real.sin v, rz * Real.cos v)

/-- Vertex `(j, i)` of the bump placed at surface point `(x3d, y3d, z3d)`:
`create_ellipsoid_bump(bump_radius, bump_radius, bump_height)` (with its
default `sections=20`, `stacks=10`) followed by
`bump.apply_translation([x3d, y3d, z3d + 0.01])`. -/
noncomputable def placed_bump_vertex (x3d y3d z3d : ℝ) (j i : ℕ) : ℝ × ℝ × ℝ :=
  let p := bump_vertex bump_radius bump_radius bump_height 20 10 j i
  (p.1 + x3d, p.2.1 + y3d, p.2.2 + (z3d + 0.01))

/-- Edge list of the (implicitly closed) polygon `Path(seg)`:
consecutive vertex pairs plus the closing edge back to the first vertex. -/
def edges (poly : List Point2) : List (Point2 × Point2) :=
  poly.zip (poly.drop 1 ++ poly.take 1)

/-- Whether the horizontal ray from `p` to the left crosses edge `(a, b)`:
the even-odd crossing-number test underlying
`matplotlib.path.Path.contains_point`. -/
def crossesEdge (p : Point2) (e : Point2 × Point2) : Bool :=
  let a := e.1
  let b := e.2
  (decide (p.2 < a.2) != decide (p.2 < b.2)) &&
    decide (p.1 < (b.1 - a.1) * (p.2 - a.2) / (b.2 - a.2) + a.1)

/-- Model of `Path(seg).contains_point(p)`: even-odd rule — `p` is inside iff an odd
number of polygon edges cross the horizontal ray from `p`. -/
def containsPoint (poly : List Point2) (p : Point2) : Bool :=
  ((edges poly).countP (crossesEdge p)) % 2 == 1

/-- First-maximum-z selection applied to the ray-intersection list:
`z3d = max(loc[2] for loc in locations)` together with
`loc = locations[np.argmax([loc[2] for loc in locations])]` (`np.argmax`
returns the first index attaining the maximum), `none` on an empty list. -/
def pickMaxZ : List Point3 → Option Point3
  | [] => none
  | l :: ls => some (ls.foldl (fun best p => if best.2.2 < p.2.2 then p else best) l)

/-- The external `mesh.ray.intersects_location(origin, direction)` query,
modelled as an oracle from (origin, direction) to the intersection list. -/
abbrev RayOracle := Point3 → Point3 → List Point3

/-- Mutable run state accumulated by the placement loop. -/
structure RunState where
  attempts : ℕ
  successes : ℕ
  spikeCount : ℕ
  bumpLocations : List Point3
  zonePaths : List (String × List Point2)
deriving DecidableEq

/-- State before the placement loop: all counters zero, no bumps, no paths. -/
def initState : RunState := ⟨0, 0, 0, [], []⟩

/-- Python dict assignment `d[k] = v` on an insertion-ordered
association list: overwrite the existing binding or append a new one. -/
def dictInsert (k : String) (v : List Point2) :
    List (String × List Point2) → List (String × List Point2)
  | [] => [(k, v)]
  | e :: rest => if e.1 = k then (k, v) :: rest else e :: dictInsert k v rest

/-- The category-name lookup inside the loop: the first category whose id
equals the annotation's `category_id`, name lowercased (`break` on match). -/
def lookupZoneName (cats : List Category) (cid : ℕ) : Option String :=
  (cats.find? (fun c => c.id == cid)).map (fun c => c.name.toLower)

/-- Model of one `np.min(seg, axis=0)` component: fold of `min` over `f` of each vertex. -/
def foldMin (f : Point2 → ℚ) (p : Point2) (ps : List Point2) : ℚ :=
  ps.foldl (fun m q => min m (f q)) (f p)

/-- Model of one `np.max(seg, axis=0)` component: fold of `max` over `f` of each vertex. -/
def foldMax (f : Point2 → ℚ) (p : Point2) (ps : List Point2) : ℚ :=
  ps.foldl (fun m q => max m (f q)) (f p)

/-- The sampling grid of one zone polygon, row-major:
`for xi in np.arange(min_x, max_x, step): for yi in np.arange(min_y, max_y, step)`
over the polygon's pixel-space bounding box. -/
def sampleGrid (p : Point2) (ps : List Point2) : List Point2 :=
  let mnx := foldMin Prod.fst p ps
  let mny := foldMin Prod.snd p ps
  let mxx := foldMax Prod.fst p ps
  let mxy := foldMax Prod.snd p ps
  (arange mnx mxx step).flatMap (fun xi => (arange mny mxy step).map (fun yi => (xi, yi)))

/-- Body of the inner grid loop for one candidate point: containment test,
2D→3D mapping, downward ray cast from `(x3d, y3d, top_z + 10)`, and on a
non-empty intersection list a bump at the maximum-z intersection. -/
def processPoint (cfg : Config) (ray : RayOracle) (path : List Point2)
    (st : RunState) (pt : Point2) : RunState :=
  if containsPoint path pt then
    let m := map_2d_to_3d cfg pt.1 pt.2
    let locs := ray (m.1, m.2, topZ cfg + 10) (0, 0, -1)
    let st1 : RunState := { st with attempts := st.attempts + 1 }
    match pickMaxZ locs with
    | none => st1
    | some loc =>
      { st1 with
        successes := st1.successes + 1
        spikeCount := st1.spikeCount + 1
        bumpLocations := st1.bumpLocations ++ [loc] }
  else st

/-- One iteration of the annotation loop: skip when `selected_ids` is
non-empty and does not contain the category id; otherwise resolve the zone
name (skip with a warning when absent), record the polygon in `zone_paths`,
and run the grid loop over the polygon's bounding box (an empty
segmentation raises inside the `try` after `zone_paths` is assigned, so
only the `zone_paths` update survives). -/
def processAnn (cfg : Config) (cats : List Category) (selectedIds : List ℕ)
    (ray : RayOracle) (st : RunState) (ann : ZoneAnn) : RunState :=
  if !selectedIds.isEmpty && !selectedIds.contains ann.categoryId then st
  else
    match lookupZoneName cats ann.categoryId with
    | none => st
    | some zoneName =>
      match ann.segmentation with
      | [] => { st with zonePaths := dictInsert zoneName [] st.zonePaths }
      | p :: ps =>
        let st1 := { st with zonePaths := dictInsert zoneName (p :: ps) st.zonePaths }
        (sampleGrid p ps).foldl (processPoint cfg ray (p :: ps)) st1

/-- The whole placement loop (`for ann in coco_data['annotations']`). -/
def runPipeline (cfg : Config) (cats : List Category) (selectedIds : List ℕ)
    (ray : RayOracle) (anns : List ZoneAnn) : RunState :=
  anns.foldl (processAnn cfg cats selectedIds ray) initState

/-- Construction step of `zone_name_to_ids`: append `v` to the binding of `k`,
or append a fresh singleton binding. -/
def listAppendAt (k : String) (v : ℕ) :
    List (String × List ℕ) → List (String × List ℕ)
  | [] => [(k, [v])]
  | e :: rest => if e.1 = k then (e.1, e.2 ++ [v]) :: rest else e :: listAppendAt k v rest

/-- Source: `zone_name_to_ids`, the map from lowercased category name to the
list of category ids carrying that name, in file order. -/
def zone_name_to_ids (cats : List Category) : List (String × List ℕ) :=
  cats.foldl (fun acc c => listAppendAt c.name.toLower c.id acc) []

/-- Dictionary lookup on the association list. -/
def lookupIds (m : List (String × List ℕ)) (k : String) : Option (List ℕ) :=
  (m.find? (fun e => e.1 == k)).map Prod.snd

/-- Resolution of `selected_ids`: lowercase each supplied zone name, extend
with its category ids when known, warn and skip otherwise. -/
def selectedIdsOf (cats : List Category) (zones : List String) : List ℕ :=
  (zones.map String.toLower).foldl
    (fun acc z =>
      match lookupIds (zone_name_to_ids cats) z with
      | some ids => acc ++ ids
      | none => acc)
    []

/-- The run after argument parsing and input loading: resolve
`selected_ids`; when nothing resolved but zone names were supplied, exit
fatally (`sys.exit(1)` after the "None of the selected zones matched known
categories." message) before the placement loop; otherwise run it. -/
def runProgram (cfg : Config) (cats : List Category) (anns : List ZoneAnn)
    (ray : RayOracle) (zones : List String) : Except String RunState :=
  let ids := selectedIdsOf cats zones
  if ids.isEmpty && !zones.isEmpty then
    .error "None of the selected zones matched known categories."
  else
    .ok (runPipeline cfg cats ids ray anns)

/-- Source: `success_rate = (ray_casting_successes / ray_casting_attempts *
100) if ray_casting_attempts > 0 else 0`. -/
def success_rate (st : RunState) : ℚ :=
  if 0 < st.attempts then (st.successes : ℚ) / (st.attempts : ℚ) * 100 else 0

/-- The inverse re-projection used by the mapping-accuracy metric:
`x2d = (loc[0] - origin_x) / x_scale`,
`y2d = img_height - (loc[1] - origin_y) / y_scale`. -/
def inverse_2d (cfg : Config) (loc : Point3) : Point2 :=
  ((loc.1 - originX cfg) / xScale cfg,
   cfg.imgHeight - (loc.2.1 - originY cfg) / yScale cfg)

/-- Source: `correct_placements`, the count of bump locations whose re-projection
lies inside some recorded zone path (the per-location inner loop breaks at
the first containing zone). -/
def correct_placements (cfg : Config) (zonePaths : List (String × List Point2))
    (locs : List Point3) : ℕ :=
  locs.foldl
    (fun acc loc =>
      if zonePaths.any (fun zp => containsPoint zp.2 (inverse_2d cfg loc)) then acc + 1
      else acc)
    0

/-- Source: `placement_accuracy = correct_placements / spike_count * 100`
when any bump was placed, else 0. -/
def placement_accuracy (cfg : Config) (st : RunState) : ℚ :=
  if 0 < st.spikeCount then
    (correct_placements cfg st.zonePaths st.bumpLocations : ℚ) / (st.spikeCount : ℚ) * 100
  else 0

/-- One iteration of the annotation loop with the `selected_ids` filter
removed: every annotation is processed.  Reference behaviour used to state
what an empty supplied-name list amounts to. -/
def processAnnAll (cfg : Config) (cats : List Category) (ray : RayOracle)
    (st : RunState) (ann : ZoneAnn) : RunState :=
  match lookupZoneName cats ann.categoryId with
  | none => st
  | some zoneName =>
    match ann.segmentation with
    | [] => { st with zonePaths := dictInsert zoneName [] st.zonePaths }
    | p :: ps =>
      let st1 := { st with zonePaths := dictInsert zoneName (p :: ps) st.zonePaths }
      (sampleGrid p ps).foldl (processPoint cfg ray (p :: ps)) st1

/-- The placement loop over every annotation, with no category filter. -/
def runPipelineAll (cfg : Config) (cats : List Category) (ray : RayOracle)
    (anns : List ZoneAnn) : RunState :=
  anns.foldl (processAnnAll cfg cats ray) initState

/-- Modelled from the spec (for comparison with `placement_accuracy`): the
polygons of every annotation the run processes, with each zone keeping all
of its polygons rather than only the last one. -/
def allZonePolygons (cats : List Category) (selectedIds : List ℕ)
    (anns : List ZoneAnn) : List (List Point2) :=
  (anns.filter (fun ann =>
    (selectedIds.isEmpty || selectedIds.contains ann.categoryId) &&
      (lookupZoneName cats ann.categoryId).isSome)).map ZoneAnn.segmentation

/-- Modelled from the spec (for comparison with `placement_accuracy`): the
mapping-accuracy metric as the claim states it, a bump counting as correct
when its re-projection falls inside any polygon of any processed zone,
zones contributing every one of their polygons. -/
def placement_accuracy_spec (cfg : Config) (cats : List Category)
    (selectedIds : List ℕ) (anns : List ZoneAnn) (st : RunState) : ℚ :=
  if 0 < st.spikeCount then
    ((st.bumpLocations.countP (fun loc =>
        (allZonePolygons cats selectedIds anns).any
          (fun poly => containsPoint poly (inverse_2d cfg loc)))) : ℚ)
      / (st.spikeCount : ℚ) * 100
  else 0

/-- Python `str.replace(pat, rep)` on character lists: replace every
non-overlapping occurrence of `pat`, scanning left to right. -/
def strReplaceAux (pat rep : List Char) : List Char → List Char
  | [] => []
  | c :: rest =>
    if pat.isPrefixOf (c :: rest) then
      rep ++ strReplaceAux pat rep (rest.drop (pat.length - 1))
    else
      c :: strReplaceAux pat rep rest
termination_by s => s.length
decreasing_by
· simp only [List.length_cons, List.length_drop]
  omega
· simp only [List.length_cons]
  omega

/-- Whether `pat` occurs as a contiguous substring of `s`. -/
def hasSub (pat : List Char) : List Char → Bool
  | [] => pat.isPrefixOf []
  | c :: rest => pat.isPrefixOf (c :: rest) || hasSub pat rest

/-- Source: `stl_output = output_file.replace('.ply', '.stl')`, the STL
export path derived from the PLY export path. -/
def stl_output (outputFile : String) : String :=
  ⟨strReplaceAux ".ply".data ".stl".data outputFile.data⟩

/-- The two paths the export step writes, in order: `output_file` then
`stl_output`. -/
def exportPaths (outputFile : String) : String × String :=
  (outputFile, stl_output outputFile)

/-- Concrete fixture: 100×100 pixel image, sole bounding box
`[-10, 90] × [-10, 90] × [0, 5]`, so `origin = (0, 0)` and both scales
are 1. -/
def cfgUnit : Config := ⟨100, 100, (-10, -10, 0), (90, 90, 5)⟩

/-- Concrete fixture: 50×50 pixel image over the same sole bounds, so both
scales are 2. -/
def cfgTwo : Config := ⟨50, 50, (-10, -10, 0), (90, 90, 5)⟩

/-- Concrete fixture: a single category named HEART with id 1. -/
def catsHeart : List Category := [⟨1, "HEART"⟩]

/-- Concrete fixture: axis-aligned square polygon `[0, 10]²` in pixels. -/
def polySmall : List Point2 := [(0, 0), (10, 0), (10, 10), (0, 10)]

/-- Concrete fixture: axis-aligned square polygon `[50, 60]²` in pixels. -/
def polyFar : List Point2 := [(50, 50), (60, 50), (60, 60), (50, 60)]

/-- Concrete fixture: annotation 1 of category 1 with polygon `polySmall`. -/
def annSmall : ZoneAnn := ⟨1, 1, polySmall⟩

/-- Concrete fixture: annotation 2 of category 1 with polygon `polyFar`. -/
def annFar : ZoneAnn := ⟨2, 1, polyFar⟩

/-- Concrete fixture: a flat solid slab — every downward ray meets its
bottom face at z = 0 and its top face at z = 5, directly below the origin. -/
def rayFlat : RayOracle := fun o _ => [(o.1, o.2.1, 0), (o.1, o.2.1, 5)]

/-! ## Helper lemmas -/

lemma pickMaxZ_foldl_spec (ls : List Point3) (a : Point3) :
    (ls.foldl (fun best p => if best.2.2 < p.2.2 then p else best) a = a ∨
      ls.foldl (fun best p => if best.2.2 < p.2.2 then p else best) a ∈ ls) ∧
    a.2.2 ≤ (ls.foldl (fun best p => if best.2.2 < p.2.2 then p else best) a).2.2 ∧
    ∀ q ∈ ls, q.2.2 ≤ (ls.foldl (fun best p => if best.2.2 < p.2.2 then p else best) a).2.2 := by
  induction ls generalizing a with
  | nil => simp
  | cons b t ih =>
    simp only [List.foldl_cons, List.mem_cons]
    by_cases h : a.2.2 < b.2.2
    · rw [if_pos h]
      obtain ⟨hmem, hle, hall⟩ := ih b
      refine ⟨?_, le_of_lt (lt_of_lt_of_le h hle), ?_⟩
      · rcases hmem with h1 | h1
        · exact Or.inr (Or.inl h1)
        · exact Or.inr (Or.inr h1)
      · intro q hq
        rcases hq with rfl | hq
        · exact hle
        · exact hall q hq
    · rw [if_neg h]
      obtain ⟨hmem, hle, hall⟩ := ih a
      refine ⟨?_, hle, ?_⟩
      · rcases hmem with h1 | h1
        · exact Or.inl h1
        · exact Or.inr (Or.inr h1)
      · intro q hq
        rcases hq with rfl | hq
        · exact le_trans (le_of_not_lt h) hle
        · exact hall q hq

lemma pickMaxZ_eq_none (l : List Point3) : pickMaxZ l = none ↔ l = [] := by
  cases l <;> simp [pickMaxZ]

lemma foldl_preserve {α σ : Type} (P : σ → Prop) (f : σ → α → σ)
    (hf : ∀ s a, P s → P (f s a)) : ∀ (l : List α) (s : σ), P s → P (l.foldl f s) := by
  intro l
  induction l with
  | nil => intro s hs; exact hs
  | cons a t ih => intro s hs; exact ih _ (hf s a hs)

/-! ## Claim C2 -/

/-- Claim C2: for every sample location whose downward vertical ray meets
the sole mesh at least once, the resolved surface point is an intersection
on the ray whose z-coordinate is maximal among all intersections
(`pickMaxZ` is exactly the selection the placement loop applies to the
result of `mesh.ray.intersects_location`). -/
theorem surface_point_is_max_z (locs : List Point3) (h : locs ≠ []) :
    ∃ p : Point3, pickMaxZ locs = some p ∧ p ∈ locs ∧ ∀ q ∈ locs, q.2.2 ≤ p.2.2 := by
  match locs with
  | [] => exact absurd rfl h
  | l :: ls =>
    obtain ⟨hmem, hle, hall⟩ := pickMaxZ_foldl_spec ls l
    refine ⟨_, rfl, ?_, ?_⟩
    · rcases hmem with h1 | h1
      · rw [h1]; exact List.mem_cons_self l ls
      · exact List.mem_cons_of_mem l h1
    · intro q hq
      rcases List.mem_cons.mp hq with rfl | hq
      · exact hle
      · exact hall q hq

/-- Witness for C2 at a concrete intersection list. -/
theorem surface_point_is_max_z_witness :
    ∃ p : Point3, pickMaxZ [((0:ℚ), (0:ℚ), (1:ℚ)), (0, 0, 3), (0, 0, 2)] = some p ∧
      p ∈ [((0:ℚ), (0:ℚ), (1:ℚ)), (0, 0, 3), (0, 0, 2)] ∧
      ∀ q ∈ [((0:ℚ), (0:ℚ), (1:ℚ)), (0, 0, 3), (0, 0, 2)], q.2.2 ≤ p.2.2 :=
  surface_point_is_max_z _ (by with_unfolding_all decide)

/-! ## Claim C3 -/

/-- Claim C3 counterexample: over the bounding box `[0, 12]` with step 5 the
grid has 3 points per axis, not `floor((12 - 0) / 5) = 2`. -/
theorem grid_count_not_floor :
    (arange 0 12 5).length ≠ (Int.floor (((12:ℚ) - 0) / 5)).toNat := by
  with_unfolding_all decide

/-- Claim C3 amended: the grid per axis is a half-open range (max edge
excluded) and has `ceil((max - min) / step)` points, determined by the
bounding box and the step alone. -/
theorem grid_axis_half_open (lo hi s : ℚ) (hs : 0 < s) :
    (arange lo hi s).length = (Int.ceil ((hi - lo) / s)).toNat ∧
    ∀ x ∈ arange lo hi s, x < hi := by
  constructor
  · rw [arange, List.length_map, List.length_range, arangeLen]
    by_cases h : lo < hi
    · rw [if_pos ⟨h, hs⟩]
    · rw [if_neg (fun hc => h hc.1)]
      symm
      rw [Int.toNat_eq_zero, Int.ceil_le]
      push_cast
      apply div_nonpos_of_nonpos_of_nonneg
      · linarith [not_lt.mp h]
      · exact hs.le
  · intro x hx
    rw [arange] at hx
    simp only [List.mem_map, List.mem_range] at hx
    obtain ⟨i, hilt, rfl⟩ := hx
    rw [arangeLen] at hilt
    by_cases h : lo < hi
    · rw [if_pos ⟨h, hs⟩] at hilt
      have h1 : ((i : ℤ) : ℚ) < (hi - lo) / s := by
        rw [← Int.lt_ceil]
        exact_mod_cast Int.lt_toNat.mp hilt
      have h2 : (i : ℚ) * s < hi - lo := by
        rw [← lt_div_iff₀ hs]
        exact_mod_cast h1
      linarith
    · rw [if_neg (fun hc => h hc.1)] at hilt
      exact absurd hilt (Nat.not_lt_zero i)

/-- Witness for C3's amended claim at the concrete axis `[0, 12)`, step 5. -/
theorem grid_axis_half_open_witness :
    (arange 0 12 5).length = (Int.ceil (((12:ℚ) - 0) / 5)).toNat ∧
    ∀ x ∈ arange 0 12 5, x < 12 :=
  grid_axis_half_open 0 12 5 (by with_unfolding_all decide)

/-! ## Claim C6 -/

/-- Claim C6: mapping an image-space point into 3D and re-projecting it
through the inverse transform recovers the point exactly (over exact
arithmetic) whenever both scale factors are nonzero. -/
theorem map_round_trip (cfg : Config) (x y z : ℚ)
    (hx : xScale cfg ≠ 0) (hy : yScale cfg ≠ 0) :
    inverse_2d cfg ((map_2d_to_3d cfg x y).1, (map_2d_to_3d cfg x y).2, z) = (x, y) := by
  simp only [inverse_2d, map_2d_to_3d, Prod.mk.injEq]
  constructor <;> field_simp

/-- Witness for C6 at a concrete configuration and image point. -/
theorem map_round_trip_witness :
    inverse_2d cfgUnit
      ((map_2d_to_3d cfgUnit 3 4).1, (map_2d_to_3d cfgUnit 3 4).2, 0) = (3, 4) :=
  map_round_trip cfgUnit 3 4 0 (by with_unfolding_all decide) (by with_unfolding_all decide)

/-! ## Claim C9 -/

/-- Claim C9 counterexample: with a configuration whose x-scale is 2, the
grid the sampler iterates in pixel space still advances by the raw
constant `step = 5`, not by `5 / x_scale = 2.5`: the step is applied
directly in pixels, not derived from the mapper's scale. -/
theorem step_not_scale_derived :
    xScale cfgTwo = 2 ∧ arange 0 10 step = [0, 5] ∧ step ≠ 5 / xScale cfgTwo := by
  with_unfolding_all decide

/-- Claim C9 amended: the sampling step is the raw constant 5.0 applied
directly in image-pixel units — consecutive grid coordinates along an axis
differ by exactly `step`, with no dependence on the coordinate mapper's
scale factors. -/
theorem grid_spacing_is_raw_step (lo hi : ℚ) (i : ℕ)
    (h : i + 1 < (arange lo hi step).length) :
    (arange lo hi step).get ⟨i + 1, h⟩ -
      (arange lo hi step).get ⟨i, Nat.lt_of_succ_lt h⟩ = step := by
  simp only [arange, List.get_eq_getElem, List.getElem_map, List.getElem_range]
  push_cast
  ring

/-- Witness for C9's amended claim on the concrete axis `[0, 12)`. -/
theorem grid_spacing_is_raw_step_witness :
    (arange 0 12 step).get ⟨1, by with_unfolding_all decide⟩ -
      (arange 0 12 step).get ⟨0, by with_unfolding_all decide⟩ = step :=
  grid_spacing_is_raw_step 0 12 0 (by with_unfolding_all decide)

/-! ## Claim C10 -/

lemma strReplaceAux_of_not_sub (pat rep : List Char) :
    ∀ s, hasSub pat s = false → strReplaceAux pat rep s = s := by
  intro s
  induction s with
  | nil => intro _; rw [strReplaceAux]
  | cons c rest ih =>
    intro h
    rw [hasSub] at h
    simp only [Bool.or_eq_false_iff] at h
    rw [strReplaceAux, if_neg (by simp [h.1])]
    rw [ih h.2]

/-- Claim C10: the STL path is derived from the output filename by
replacing the substring ".ply"; for an output filename with no occurrence
of ".ply" both export calls target the same path (so the second export
overwrites the first and only one output file results). -/
theorem no_ply_same_export_path (f : String)
    (h : hasSub ".ply".data f.data = false) :
    exportPaths f = (f, f) := by
  unfold exportPaths stl_output
  rw [strReplaceAux_of_not_sub _ _ _ h]

/-- Witness for C10 at a concrete ".obj" output filename. -/
theorem no_ply_same_export_path_witness :
    exportPaths "sole_with_spikes_left.obj" =
      ("sole_with_spikes_left.obj", "sole_with_spikes_left.obj") :=
  no_ply_same_export_path "sole_with_spikes_left.obj" (by with_unfolding_all decide)

/-! ## Claim C1 -/

deriving instance DecidableEq for Except

lemma processAnn_empty_ids (cfg : Config) (cats : List Category) (ray : RayOracle) :
    processAnn cfg cats [] ray = processAnnAll cfg cats ray := by
  funext st ann
  rw [processAnn, processAnnAll]
  simp

/-- Claim C1 counterexample: supplying zero zone names runs the pipeline
over every annotation — with one annotation and a flat two-faced solid the
run casts 4 rays, places 4 bumps and records the zone's polygon, instead
of processing nothing. -/
theorem empty_zones_processes_everything :
    runProgram cfgUnit catsHeart [annSmall] rayFlat [] =
      .ok (runPipeline cfgUnit catsHeart [] rayFlat [annSmall]) ∧
    (runPipeline cfgUnit catsHeart [] rayFlat [annSmall]).attempts = 4 ∧
    (runPipeline cfgUnit catsHeart [] rayFlat [annSmall]).spikeCount = 4 ∧
    (runPipeline cfgUnit catsHeart [] rayFlat [annSmall]).zonePaths =
      [("heart", polySmall)] := by
  with_unfolding_all decide

/-- Claim C1 amended: an empty supplied-name list is not distinguished
from "process everything": with zero zone names the run does not abort and
the annotation loop's category filter admits every annotation, so the run
equals the filter-free pipeline over all annotations. -/
theorem empty_zones_run_all (cfg : Config) (cats : List Category)
    (anns : List ZoneAnn) (ray : RayOracle) :
    runProgram cfg cats anns ray [] = .ok (runPipelineAll cfg cats ray anns) := by
  rw [runProgram]
  have hids : selectedIdsOf cats [] = [] := rfl
  rw [hids]
  simp only [List.isEmpty_nil, Bool.not_true, Bool.and_false, Bool.false_eq_true,
    if_false, ite_false]
  rw [runPipeline, runPipelineAll, processAnn_empty_ids]

/-! ## Claim C8 -/

/-- Claim C8: a requested zone name missing from the category map does not
change the resolved id set (a per-name warning only); when names were
supplied but none resolved, the run aborts with the fatal
"no matching categories" error before any processing; when at least one
name resolves, the placement loop runs and produces a result. -/
theorem unknown_zone_handling (cfg : Config) (cats : List Category)
    (anns : List ZoneAnn) (ray : RayOracle) (zones : List String) :
    (zones ≠ [] → selectedIdsOf cats zones = [] →
      runProgram cfg cats anns ray zones =
        .error "None of the selected zones matched known categories.") ∧
    (selectedIdsOf cats zones ≠ [] →
      runProgram cfg cats anns ray zones =
        .ok (runPipeline cfg cats (selectedIdsOf cats zones) ray anns)) ∧
    (∀ z : String, lookupIds (zone_name_to_ids cats) z.toLower = none →
      selectedIdsOf cats (zones ++ [z]) = selectedIdsOf cats zones) := by
  refine ⟨?_, ?_, ?_⟩
  · intro hz hids
    rw [runProgram, hids]
    have hne : zones.isEmpty = false := by
      cases zones with
      | nil => exact absurd rfl hz
      | cons a t => rfl
    simp [hne]
  · intro hids
    rw [runProgram]
    have hne : (selectedIdsOf cats zones).isEmpty = false := by
      cases hsel : selectedIdsOf cats zones with
      | nil => exact absurd hsel hids
      | cons a t => rfl
    simp [hne]
  · intro z hz
    rw [selectedIdsOf, selectedIdsOf, List.map_append, List.foldl_append]
    simp [hz]

/-- Witness for C8: a lone unknown name aborts fatally; one known plus one
unknown name runs the pipeline; appending the unknown name leaves the
resolved ids unchanged. -/
theorem unknown_zone_handling_witness :
    runProgram cfgUnit catsHeart [] rayFlat ["nope"] =
      .error "None of the selected zones matched known categories." ∧
    runProgram cfgUnit catsHeart [] rayFlat ["Heart", "nope"] =
      .ok (runPipeline cfgUnit catsHeart
        (selectedIdsOf catsHeart ["Heart", "nope"]) rayFlat []) ∧
    selectedIdsOf catsHeart (["Heart"] ++ ["nope"]) =
      selectedIdsOf catsHeart ["Heart"] :=
  ⟨(unknown_zone_handling cfgUnit catsHeart [] rayFlat ["nope"]).1
      (by with_unfolding_all decide) (by with_unfolding_all decide),
   (unknown_zone_handling cfgUnit catsHeart [] rayFlat ["Heart", "nope"]).2.1
      (by with_unfolding_all decide),
   (unknown_zone_handling cfgUnit catsHeart [] rayFlat ["Heart"]).2.2 "nope"
      (by with_unfolding_all decide)⟩

/-! ## Claim C4 -/

lemma processPoint_le (cfg : Config) (ray : RayOracle) (path : List Point2)
    (st : RunState) (pt : Point2) (h : st.successes ≤ st.attempts) :
    (processPoint cfg ray path st pt).successes ≤
      (processPoint cfg ray path st pt).attempts := by
  simp only [processPoint]
  split
  · split <;> simp <;> omega
  · exact h

lemma processPoint_eq (cfg : Config) (ray : RayOracle) (path : List Point2)
    (st : RunState) (pt : Point2) (hray : ∀ o d, ray o d ≠ [])
    (h : st.successes = st.attempts) :
    (processPoint cfg ray path st pt).successes =
      (processPoint cfg ray path st pt).attempts := by
  simp only [processPoint]
  split
  · split
    · rename_i heq
      rw [pickMaxZ_eq_none] at heq
      exact absurd heq (hray _ _)
    · simp
      omega
  · exact h

lemma runPipeline_pres (cfg : Config) (cats : List Category) (ids : List ℕ)
    (ray : RayOracle) (anns : List ZoneAnn) (P : RunState → Prop)
    (hz : ∀ st zp, P st → P { st with zonePaths := zp })
    (hpt : ∀ path st pt, P st → P (processPoint cfg ray path st pt))
    (h0 : P initState) :
    P (runPipeline cfg cats ids ray anns) := by
  rw [runPipeline]
  apply foldl_preserve _ _ _ anns initState h0
  intro st ann hst
  rw [processAnn]
  split
  · exact hst
  · split
    · exact hst
    · split
      · exact hz _ _ hst
      · exact foldl_preserve _ _ (fun s q hq => hpt _ s q hq) _ _ (hz _ _ hst)

/-- Claim C4: at the end of every run `successes ≤ attempts`, the success
rate lies between 0 and 100, equals `successes / attempts * 100` when at
least one ray was cast, is 0 when no ray was cast, and is 100 whenever the
mesh answers every downward ray with at least one intersection (and at
least one sample point was cast). -/
theorem success_rate_invariant (cfg : Config) (cats : List Category)
    (ids : List ℕ) (ray : RayOracle) (anns : List ZoneAnn) :
    (runPipeline cfg cats ids ray anns).successes ≤
      (runPipeline cfg cats ids ray anns).attempts ∧
    (0 ≤ success_rate (runPipeline cfg cats ids ray anns) ∧
      success_rate (runPipeline cfg cats ids ray anns) ≤ 100) ∧
    ((runPipeline cfg cats ids ray anns).attempts = 0 →
      success_rate (runPipeline cfg cats ids ray anns) = 0) ∧
    (0 < (runPipeline cfg cats ids ray anns).attempts →
      success_rate (runPipeline cfg cats ids ray anns) =
        ((runPipeline cfg cats ids ray anns).successes : ℚ) /
          ((runPipeline cfg cats ids ray anns).attempts : ℚ) * 100) ∧
    ((∀ o d, ray o d ≠ []) → 0 < (runPipeline cfg cats ids ray anns).attempts →
      success_rate (runPipeline cfg cats ids ray anns) = 100) := by
  have hle : (runPipeline cfg cats ids ray anns).successes ≤
      (runPipeline cfg cats ids ray anns).attempts := by
    apply runPipeline_pres cfg cats ids ray anns
      (fun st => st.successes ≤ st.attempts)
    · intro st zp h
      exact h
    · intro path st pt h
      exact processPoint_le cfg ray path st pt h
    · exact Nat.le_refl 0
  refine ⟨hle, ?_, ?_, ?_, ?_⟩
  · rw [success_rate]
    split
    · rename_i hpos
      constructor
      · positivity
      · have ha : (0 : ℚ) < ((runPipeline cfg cats ids ray anns).attempts : ℚ) := by
          exact_mod_cast hpos
        have hd : ((runPipeline cfg cats ids ray anns).successes : ℚ) /
            ((runPipeline cfg cats ids ray anns).attempts : ℚ) ≤ 1 := by
          rw [div_le_one ha]
          exact_mod_cast hle
        linarith
    · norm_num
  · intro h0
    rw [success_rate, if_neg (by omega)]
  · intro hpos
    rw [success_rate, if_pos hpos]
  · intro hray hpos
    have heq : (runPipeline cfg cats ids ray anns).successes =
        (runPipeline cfg cats ids ray anns).attempts := by
      apply runPipeline_pres cfg cats ids ray anns
        (fun st => st.successes = st.attempts)
      · intro st zp h
        exact h
      · intro path st pt h
        exact processPoint_eq cfg ray path st pt hray h
      · rfl
    rw [success_rate, if_pos hpos, heq,
      div_self (Nat.cast_pos.mpr hpos).ne', one_mul]

/-- Witness for C4 on a concrete run where every ray hits: the rate is
exactly 100. -/
theorem success_rate_invariant_witness :
    success_rate (runPipeline cfgUnit catsHeart [1] rayFlat [annSmall]) = 100 :=
  (success_rate_invariant cfgUnit catsHeart [1] rayFlat [annSmall]).2.2.2.2
    (fun o d => by simp [rayFlat]) (by with_unfolding_all decide)

/-! ## Claim C5 -/

/-- Claim C5: every vertex of the dome mesh has nonnegative z before
translation (the elevation parameter stays within `[0, π/2]`, where the
cosine is nonnegative), and after `apply_translation([x3d, y3d, z3d + 0.01])`
every vertex z is strictly greater than the underlying surface point's z. -/
theorem bump_above_surface (x3d y3d z3d : ℝ) (j i : ℕ)
    (hj : j < 10) (hi : i < 20) :
    0 ≤ (bump_vertex bump_radius bump_radius bump_height 20 10 j i).2.2 ∧
    z3d < (placed_bump_vertex x3d y3d z3d j i).2.2 := by
  have hπ := Real.pi_pos
  have hj9 : (j : ℝ) ≤ 9 := by exact_mod_cast Nat.le_of_lt_succ hj
  have hcast : ((10 : ℕ) : ℝ) - 1 = 9 := by norm_num
  have hv0 : (0 : ℝ) ≤ linspace 0 (Real.pi / 2) 10 j := by
    rw [linspace, hcast]
    have hjn : (0 : ℝ) ≤ (j : ℝ) := Nat.cast_nonneg j
    nlinarith
  have hv1 : linspace 0 (Real.pi / 2) 10 j ≤ Real.pi / 2 := by
    rw [linspace, hcast]
    have hm : (Real.pi / 2) * (j : ℝ) ≤ (Real.pi / 2) * 9 :=
      mul_le_mul_of_nonneg_left hj9 (by positivity)
    linarith
  have hcos : 0 ≤ Real.cos (linspace 0 (Real.pi / 2) 10 j) :=
    Real.cos_nonneg_of_mem_Icc ⟨by linarith, hv1⟩
  have hz : 0 ≤ (bump_vertex bump_radius bump_radius bump_height 20 10 j i).2.2 := by
    rw [bump_vertex]
    have hh : (0 : ℝ) ≤ bump_height := by rw [bump_height]; norm_num
    exact mul_nonneg hh hcos
  refine ⟨hz, ?_⟩
  rw [placed_bump_vertex]
  have h001 : (0 : ℝ) < 0.01 := by norm_num
  simp only
  linarith

/-- Witness for C5 at the first dome vertex over a surface point at z = 0. -/
theorem bump_above_surface_witness :
    0 ≤ (bump_vertex bump_radius bump_radius bump_height 20 10 0 0).2.2 ∧
    (0 : ℝ) < (placed_bump_vertex 0 0 0 0 0).2.2 :=
  bump_above_surface 0 0 0 0 0 (by decide) (by decide)

/-! ## Claim C7 -/

/-- Zone-path dictionary lookup (`zone_paths[zone]`). -/
def lookupPath (m : List (String × List Point2)) (k : String) : Option (List Point2) :=
  (m.find? (fun e => e.1 == k)).map Prod.snd

lemma count_foldl_eq {α : Type} (p : α → Bool) :
    ∀ (l : List α) (n : ℕ),
      l.foldl (fun acc x => if p x then acc + 1 else acc) n = n + l.countP p := by
  intro l
  induction l with
  | nil => simp
  | cons a t ih =>
    intro n
    simp only [List.foldl_cons, List.countP_cons]
    by_cases h : p a
    · rw [if_pos (by simp [h]), ih, if_pos h]
      omega
    · rw [if_neg (by simp [h]), ih, if_neg h]
      omega

lemma correct_placements_eq_countP (cfg : Config)
    (zps : List (String × List Point2)) (locs : List Point3) :
    correct_placements cfg zps locs =
      locs.countP (fun loc => zps.any (fun zp => containsPoint zp.2 (inverse_2d cfg loc))) := by
  rw [correct_placements, count_foldl_eq, Nat.zero_add]

lemma lookupPath_dictInsert (k : String) (v : List Point2) :
    ∀ m, lookupPath (dictInsert k v m) k = some v := by
  intro m
  induction m with
  | nil => simp [dictInsert, lookupPath]
  | cons e rest ih =>
    rw [dictInsert]
    by_cases h : e.1 = k
    · rw [if_pos h]
      simp [lookupPath]
    · rw [if_neg h]
      have hb : (e.1 == k) = false := beq_eq_false_iff_ne.mpr h
      rw [lookupPath] at ih ⊢
      rw [List.find?_cons_of_neg _ (by simp [hb])]
      exact ih

/-- Claim C7 counterexample: with one zone name carrying two disjoint
polygons, the metric checks re-projected bumps only against the zone's
last-processed polygon (`zone_paths[zone_name] = path` overwrites), so the
four bumps placed inside the first polygon are counted incorrect: the code
reports 50% where the claim's any-polygon reading gives 100%. -/
theorem placement_accuracy_not_all_polygons :
    placement_accuracy cfgUnit
      (runPipeline cfgUnit catsHeart [1] rayFlat [annSmall, annFar]) = 50 ∧
    placement_accuracy_spec cfgUnit catsHeart [1] [annSmall, annFar]
      (runPipeline cfgUnit catsHeart [1] rayFlat [annSmall, annFar]) = 100 ∧
    placement_accuracy cfgUnit
        (runPipeline cfgUnit catsHeart [1] rayFlat [annSmall, annFar]) ≠
      placement_accuracy_spec cfgUnit catsHeart [1] [annSmall, annFar]
        (runPipeline cfgUnit catsHeart [1] rayFlat [annSmall, annFar]) := by
  with_unfolding_all decide

/-- Claim C7 amended: the metric counts a bump correct when its
re-projected 2D location falls inside the polygon of any recorded zone
(not necessarily its originating zone) and reports the fraction as a
percentage — but each zone contributes only one polygon, the one of its
last-processed annotation, since the `zone_paths` dictionary assignment
overwrites earlier polygons of the same zone name. -/
theorem placement_accuracy_any_recorded_zone (cfg : Config) (st : RunState)
    (h : 0 < st.spikeCount) :
    placement_accuracy cfg st =
      ((st.bumpLocations.countP (fun loc =>
          decide (∃ zp ∈ st.zonePaths, containsPoint zp.2 (inverse_2d cfg loc) = true))) : ℚ)
        / (st.spikeCount : ℚ) * 100 ∧
    ∀ (m : List (String × List Point2)) (k : String) (v : List Point2),
      lookupPath (dictInsert k v m) k = some v := by
  constructor
  · rw [placement_accuracy, if_pos h, correct_placements_eq_countP]
    have hfun : (fun loc : Point3 =>
          st.zonePaths.any fun zp => containsPoint zp.2 (inverse_2d cfg loc)) =
        (fun loc : Point3 => decide (∃ zp ∈ st.zonePaths,
          containsPoint zp.2 (inverse_2d cfg loc) = true)) := by
      funext loc
      by_cases hA : st.zonePaths.any (fun zp => containsPoint zp.2 (inverse_2d cfg loc)) = true
      · rw [hA]
        symm
        rw [decide_eq_true_eq]
        exact List.any_eq_true.mp hA
      · rw [Bool.not_eq_true] at hA
        rw [hA]
        symm
        rw [decide_eq_false_iff_not]
        intro hex
        exact absurd (List.any_eq_true.mpr hex) (by simp [hA])
    rw [hfun]
  · intro m k v
    exact lookupPath_dictInsert k v m

/-- Witness for C7's amended claim on the concrete two-polygon run. -/
theorem placement_accuracy_any_recorded_zone_witness :
    placement_accuracy cfgUnit
        (runPipeline cfgUnit catsHeart [1] rayFlat [annSmall, annFar]) =
      (((runPipeline cfgUnit catsHeart [1] rayFlat [annSmall, annFar]).bumpLocations.countP
          (fun loc => decide (∃ zp ∈
              (runPipeline cfgUnit catsHeart [1] rayFlat [annSmall, annFar]).zonePaths,
            containsPoint zp.2 (inverse_2d cfgUnit loc) = true))) : ℚ)
        / (((runPipeline cfgUnit catsHeart [1] rayFlat [annSmall, annFar]).spikeCount : ℕ) : ℚ)
        * 100 ∧
    ∀ (m : List (String × List Point2)) (k : String) (v : List Point2),
      lookupPath (dictInsert k v m) k = some v :=
  placement_accuracy_any_recorded_zone cfgUnit
    (runPipeline cfgUnit catsHeart [1] rayFlat [annSmall, annFar])
    (by with_unfolding_all decide)
